import Mathlib

/-!
Verification of the todo-list backend against its specification.

Shallow embedding of the relevant Python source:
* `src/apps/users/domain/entities.py` (domain `User` entity),
* `src/apps/authentication/domain/services.py` and
  `src/apps/authentication/application/use_cases.py` (rate limiting,
  password reset),
* `src/apps/tasks/domain/services.py` and
  `src/backend/apps/tasks/application/use_cases.py` (related-task
  auto-completion, bulk complete, productivity),
* `src/apps/tasks/infrastructure/repositories.py` and
  `src/backend/apps/tasks/infrastructure/models.py` (filtered query
  ordering).

Python mutable objects are modelled by explicit state passing.  A method
that can raise (`ValueError`) is modelled as returning
`Option String × State`: the first component is the exception message if
one escapes, the second is the state of the object afterwards (Python
mutations performed before the raise survive, which the model keeps
faithfully).  `datetime.now()` is an explicit `now` parameter.
-/

namespace TodoSpec

/-! ## Users domain entity — `src/apps/users/domain/entities.py` -/

inductive UserStatus
  | active
  | inactive
  | suspended
  | pending_verification
deriving DecidableEq, Repr

structure User where
  id : Option String
  name : String
  email : String
  password_hash : String
  status : UserStatus
  is_email_verified : Bool
  last_login_ip : Option String
  failed_login_attempts : Nat
  account_locked_until : Option Nat
  last_login : Option Nat
deriving DecidableEq, Repr

namespace User

/-- `User.is_account_locked`: lock-until set and in the future
(times are in minutes). -/
def is_account_locked (now : Nat) (u : User) : Bool :=
  match u.account_locked_until with
  | none => false
  | some t => decide (now < t)

/-- `User.lock_account(duration_minutes=30)`: raises if already locked,
otherwise sets `account_locked_until = now + duration` and suspends. -/
def lock_account (now duration_minutes : Nat) (u : User) :
    Option String × User :=
  if is_account_locked now u then
    (some "Account is already locked", u)
  else
    (none, { u with
      account_locked_until := some (now + duration_minutes)
      status := .suspended })

/-- `User.unlock_account()`: clears the lock and the failure counter and
restores `ACTIVE` status when the user was `SUSPENDED`. -/
def unlock_account (u : User) : Option String × User :=
  let u1 := { u with account_locked_until := none, failed_login_attempts := 0 }
  (none, if u1.status = .suspended then { u1 with status := .active } else u1)

/-- `User.increment_failed_login(max_attempts=5)`: increments the counter
first, then auto-locks at the threshold.  If `lock_account` raises, the
increment has already happened and survives. -/
def increment_failed_login (now max_attempts : Nat) (u : User) :
    Option String × User :=
  let u1 := { u with failed_login_attempts := u.failed_login_attempts + 1 }
  if max_attempts ≤ u1.failed_login_attempts then
    lock_account now 30 u1
  else
    (none, u1)

/-- `User.reset_failed_login()`: zeroes the counter if non-zero. -/
def reset_failed_login (u : User) : Option String × User :=
  if 0 < u.failed_login_attempts then
    (none, { u with failed_login_attempts := 0 })
  else
    (none, u)

/-- `User.verify_email()`: raises if already verified; else sets the flag
and promotes `PENDING_VERIFICATION` to `ACTIVE`. -/
def verify_email (u : User) : Option String × User :=
  if u.is_email_verified then
    (some "Email is already verified", u)
  else
    let u1 := { u with is_email_verified := true }
    (none, if u1.status = .pending_verification then
      { u1 with status := .active } else u1)

/-- `User.update_last_login(ip_address=None)`: stamps last login, the IP
when one is truthy, and resets the failure counter. -/
def update_last_login (now : Nat) (ip_address : Option String) (u : User) :
    Option String × User :=
  let u1 := { u with last_login := some now }
  let u2 := match ip_address with
    | some ip => if ip = "" then u1 else { u1 with last_login_ip := some ip }
    | none => u1
  reset_failed_login u2

/-- `User.deactivate()`: raises if already inactive. -/
def deactivate (u : User) : Option String × User :=
  if u.status = .inactive then
    (some "User is already inactive", u)
  else
    (none, { u with status := .inactive })

/-- `User.activate()`: raises if already active; else sets `ACTIVE` and
additionally unlocks. -/
def activate (u : User) : Option String × User :=
  if u.status = .active then
    (some "User is already active", u)
  else
    unlock_account { u with status := .active }

/-- `User.get_security_level()` in its source precedence order. -/
def get_security_level (now : Nat) (u : User) : String :=
  if is_account_locked now u then "LOCKED"
  else if 3 ≤ u.failed_login_attempts then "HIGH_RISK"
  else if ¬ u.is_email_verified then "UNVERIFIED"
  else "NORMAL"

end User

/-- A concrete, entity-valid user with a clean security state, used by
witnesses. -/
def cleanUser : User :=
  { id := some "u1"
    name := "Jo"
    email := "jo@example.com"
    password_hash := "salt:hash"
    status := .active
    is_email_verified := true
    last_login_ip := none
    failed_login_attempts := 0
    account_locked_until := none
    last_login := none }

/-- The lockout scenario of claim C2: five consecutive
`increment_failed_login()` calls from a clean state, each observed at its
own clock value `n1 … n5`. -/
def lockoutScenario (u : User) (n1 n2 n3 n4 n5 : Nat) : Prop :=
  let r1 := User.increment_failed_login n1 5 u
  let r2 := User.increment_failed_login n2 5 r1.2
  let r3 := User.increment_failed_login n3 5 r2.2
  let r4 := User.increment_failed_login n4 5 r3.2
  let r5 := User.increment_failed_login n5 5 r4.2
  r1.1 = none ∧ r2.1 = none ∧ r3.1 = none ∧ r4.1 = none ∧
  (∀ m, User.is_account_locked m r1.2 = false) ∧
  (∀ m, User.is_account_locked m r2.2 = false) ∧
  (∀ m, User.is_account_locked m r3.2 = false) ∧
  (∀ m, User.is_account_locked m r4.2 = false) ∧
  r4.2.failed_login_attempts = 4 ∧
  r5.1 = none ∧
  User.is_account_locked n5 r5.2 = true ∧
  r5.2.account_locked_until = some (n5 + 30) ∧
  n5 < n5 + 30 ∧
  r5.2.status = .suspended ∧
  r5.2.failed_login_attempts = 5

/-- The invariant of claim C8: `SUSPENDED` status implies a non-null
`account_locked_until`. -/
def SuspendedImpliesLocked (u : User) : Prop :=
  u.status = .suspended → u.account_locked_until ≠ none

/-- C2: starting from zero failed attempts and no lock, four consecutive
`increment_failed_login()` calls raise nothing and leave the account
unlocked; the fifth raises nothing, locks the account (lock-until in the
future, status `SUSPENDED`) and leaves `failed_login_attempts = 5`. -/
theorem increment_failed_login_locks_at_fifth
    (u : User) (n1 n2 n3 n4 n5 : Nat)
    (h0 : u.failed_login_attempts = 0)
    (hl : u.account_locked_until = none) :
    TodoSpec.lockoutScenario u n1 n2 n3 n4 n5 := by
  simp only [lockoutScenario, User.increment_failed_login,
    User.lock_account, User.is_account_locked, h0, hl]
  norm_num

/-- Witness for C2 at a concrete clean user and concrete clock values. -/
theorem increment_failed_login_locks_at_fifth_witness :
    TodoSpec.lockoutScenario cleanUser 0 1 2 3 4 :=
  increment_failed_login_locks_at_fifth cleanUser 0 1 2 3 4 rfl rfl

/-- C8: every domain `User` operation preserves the invariant that
`SUSPENDED` implies a non-null `account_locked_until` (on both the raising
and non-raising paths, on the post-state), and `unlock_account()` always
clears the lock and the failure counter and restores `ACTIVE` whenever the
status was `SUSPENDED`. -/
theorem user_operations_preserve_suspended_lock_invariant
    (u : User) (now dur maxa : Nat) (ip : Option String)
    (h : SuspendedImpliesLocked u) :
    SuspendedImpliesLocked (User.lock_account now dur u).2 ∧
    SuspendedImpliesLocked (User.unlock_account u).2 ∧
    SuspendedImpliesLocked (User.increment_failed_login now maxa u).2 ∧
    SuspendedImpliesLocked (User.reset_failed_login u).2 ∧
    SuspendedImpliesLocked (User.verify_email u).2 ∧
    SuspendedImpliesLocked (User.update_last_login now ip u).2 ∧
    SuspendedImpliesLocked (User.deactivate u).2 ∧
    SuspendedImpliesLocked (User.activate u).2 ∧
    (User.unlock_account u).2.account_locked_until = none ∧
    (User.unlock_account u).2.failed_login_attempts = 0 ∧
    (u.status = .suspended → (User.unlock_account u).2.status = .active) := by
  refine ⟨?_, ?_, ?_, ?_, ?_, ?_, ?_, ?_, ?_, ?_, ?_⟩
  · simp only [SuspendedImpliesLocked, User.lock_account] at h ⊢
    split_ifs <;> simp_all
  · simp only [SuspendedImpliesLocked, User.unlock_account] at h ⊢
    split_ifs <;> simp_all
  · simp only [SuspendedImpliesLocked, User.increment_failed_login,
      User.lock_account] at h ⊢
    split_ifs <;> simp_all
  · simp only [SuspendedImpliesLocked, User.reset_failed_login] at h ⊢
    split_ifs <;> simp_all
  · simp only [SuspendedImpliesLocked, User.verify_email] at h ⊢
    split_ifs <;> simp_all
  · simp only [SuspendedImpliesLocked, User.update_last_login,
      User.reset_failed_login] at h ⊢
    cases ip with
    | none => split_ifs <;> simp_all
    | some s =>
      rcases eq_or_ne s "" with hs | hs <;>
        simp only [hs, reduceIte, ne_eq, hs, if_neg] <;>
        split_ifs <;> simp_all
  · simp only [SuspendedImpliesLocked, User.deactivate] at h ⊢
    split_ifs <;> simp_all
  · simp only [SuspendedImpliesLocked, User.activate,
      User.unlock_account] at h ⊢
    split_ifs <;> simp_all
  · simp only [User.unlock_account]
    split_ifs <;> rfl
  · simp only [User.unlock_account]
    split_ifs <;> rfl
  · intro hs
    simp [User.unlock_account, hs]

/-- Witness for C8 at a concrete user satisfying the invariant. -/
theorem user_operations_preserve_suspended_lock_invariant_witness :
    SuspendedImpliesLocked (User.lock_account 0 30 cleanUser).2 ∧
    SuspendedImpliesLocked (User.unlock_account cleanUser).2 ∧
    SuspendedImpliesLocked (User.increment_failed_login 0 5 cleanUser).2 ∧
    SuspendedImpliesLocked (User.reset_failed_login cleanUser).2 ∧
    SuspendedImpliesLocked (User.verify_email cleanUser).2 ∧
    SuspendedImpliesLocked (User.update_last_login 0 none cleanUser).2 ∧
    SuspendedImpliesLocked (User.deactivate cleanUser).2 ∧
    SuspendedImpliesLocked (User.activate cleanUser).2 ∧
    (User.unlock_account cleanUser).2.account_locked_until = none ∧
    (User.unlock_account cleanUser).2.failed_login_attempts = 0 ∧
    (cleanUser.status = .suspended →
      (User.unlock_account cleanUser).2.status = .active) :=
  user_operations_preserve_suspended_lock_invariant cleanUser 0 30 5 none
    (by intro h; simp [cleanUser] at h)

/-- C9: `get_security_level()` returns `LOCKED` whenever the account is
currently locked; otherwise `HIGH_RISK` when `failed_login_attempts ≥ 3`;
otherwise `UNVERIFIED` when the email is unverified; otherwise `NORMAL` —
in exactly that precedence order. -/
theorem get_security_level_precedence (u : User) (now : Nat) :
    (User.is_account_locked now u = true →
      User.get_security_level now u = "LOCKED") ∧
    (User.is_account_locked now u = false → 3 ≤ u.failed_login_attempts →
      User.get_security_level now u = "HIGH_RISK") ∧
    (User.is_account_locked now u = false → u.failed_login_attempts < 3 →
      u.is_email_verified = false →
      User.get_security_level now u = "UNVERIFIED") ∧
    (User.is_account_locked now u = false → u.failed_login_attempts < 3 →
      u.is_email_verified = true →
      User.get_security_level now u = "NORMAL") := by
  unfold User.get_security_level
  refine ⟨fun h => ?_, fun h h3 => ?_, fun h h3 hv => ?_, fun h h3 hv => ?_⟩ <;>
    simp_all

/-- Witness for C9: the four spec scenarios at concrete users — a
locked-and-unverified user, an unlocked verified user with 4 failures, an
unlocked zero-failure unverified user, and an all-clear user. -/
theorem get_security_level_precedence_witness :
    User.get_security_level 0
      { cleanUser with
        is_email_verified := false
        account_locked_until := some 10 } = "LOCKED" ∧
    User.get_security_level 0
      { cleanUser with failed_login_attempts := 4 } = "HIGH_RISK" ∧
    User.get_security_level 0
      { cleanUser with is_email_verified := false } = "UNVERIFIED" ∧
    User.get_security_level 0 cleanUser = "NORMAL" :=
  ⟨(get_security_level_precedence _ 0).1 (by decide),
   (get_security_level_precedence _ 0).2.1 (by decide) (by decide),
   (get_security_level_precedence _ 0).2.2.1 (by decide) (by decide) (by decide),
   (get_security_level_precedence _ 0).2.2.2 (by decide) (by decide) (by decide)⟩

/-- C10: on a currently-locked user with at least 4 failed attempts,
`increment_failed_login()` raises "Account is already locked", but the
escaping state already carries the incremented counter — the operation is
not atomic on error. -/
theorem increment_failed_login_not_atomic_on_error
    (u : User) (now : Nat)
    (hlock : User.is_account_locked now u = true)
    (h4 : 4 ≤ u.failed_login_attempts) :
    User.increment_failed_login now 5 u =
      (some "Account is already locked",
       { u with failed_login_attempts := u.failed_login_attempts + 1 }) := by
  unfold User.increment_failed_login User.lock_account
  have : 5 ≤ u.failed_login_attempts + 1 := by omega
  simp only [this, if_pos]
  have hlock' : User.is_account_locked now
      { u with failed_login_attempts := u.failed_login_attempts + 1 } = true := by
    simpa [User.is_account_locked] using hlock
  simp [hlock']

/-- The locked user with 4 failed attempts used by the C10 witness. -/
def lockedUser4 : User :=
  { cleanUser with failed_login_attempts := 4, account_locked_until := some 10 }

theorem increment_failed_login_not_atomic_on_error_witness :
    User.increment_failed_login 0 5 lockedUser4 =
      (some "Account is already locked",
       { lockedUser4 with failed_login_attempts := 5 }) :=
  increment_failed_login_not_atomic_on_error lockedUser4 0
    (by decide) (by decide)

/-! ## Authentication — password reset
(`src/apps/authentication/application/use_cases.py`,
`src/apps/authentication/domain/services.py`,
`src/apps/authentication/presentation/views.py`) -/

/-- The slice of a stored user that `PasswordResetRequestUseCase` reads
through `UserRepository.find_by_email`. -/
structure AuthUserRec where
  id : String
  email : String
deriving DecidableEq, Repr

/-- `UserRepository.find_by_email`: the user whose (unique) email matches,
if any. -/
def find_by_email (db : List AuthUserRec) (email : String) : Option AuthUserRec :=
  db.find? (fun u => u.email = email)

/-- `PasswordResetRequestDTO.validate`.  Python's `'@' not in self.email`
is a single-character substring test, i.e. character membership. -/
def passwordResetValidate (email : String) : List String :=
  if email = "" then ["Email is required"]
  else if ¬ ('@' ∈ email.toList) then ["Valid email address is required"]
  else []

/-- `PasswordResetRequest` domain entity
(`src/apps/authentication/domain/entities.py`). -/
structure PasswordResetRequest where
  id : Option String
  user_id : String
  email : String
  token : String
  requested_at : Int
  expires_at : Int
deriving DecidableEq, Repr

/-- `AuthenticationDomainService.generate_password_reset_token`: builds a
reset request around a fresh random token (`fresh` stands in for
`secrets.token_urlsafe(32)`) and returns the token.  The constructed
request is never handed to a persistence call — that line is commented out
in the source — so the request record is returned here only to mirror its
construction. -/
def generate_password_reset_token (now : Int) (fresh user_id email : String) :
    String × PasswordResetRequest :=
  (fresh,
   { id := none
     user_id := user_id
     email := email
     token := fresh
     requested_at := now
     expires_at := now + 3600 })

/-- `PasswordResetResponseDTO`. -/
structure PasswordResetResponseDTO where
  success : Bool
  message : String
  token : Option String
deriving DecidableEq, Repr

/-- `PasswordResetRequestUseCase.execute`. -/
def passwordResetRequestExecute (db : List AuthUserRec) (now : Int)
    (fresh email : String) : PasswordResetResponseDTO :=
  let errs := passwordResetValidate email
  if errs ≠ [] then
    { success := false
      message := "Validation failed: " ++ String.intercalate ", " errs
      token := none }
  else
    match find_by_email db email with
    | none =>
      { success := true
        message := "If the email address exists, a password reset link has been sent."
        token := none }
    | some user =>
      { success := true
        message := "If the email address exists, a password reset link has been sent."
        token := some (generate_password_reset_token now fresh user.id user.email).1 }

/-- The HTTP response body built by `request_password_reset` in
`src/apps/authentication/presentation/views.py`: the JSON rendering of
`\x7b'message': result.message\x7d` — it exposes only the message. -/
def requestPasswordResetResponseBody (r : PasswordResetResponseDTO) : String :=
  "\x7b\"message\": \"" ++ r.message ++ "\"\x7d"

/-- C1: for a pair of reset requests, one for an email with no registered
user and one for an email with a registered user, both runs succeed with
byte-identical response bodies, and a reset token is issued only in the
existing-email run. -/
theorem password_reset_enumeration_resistant
    (db : List AuthUserRec) (now1 now2 : Int) (tok1 tok2 e1 e2 : String)
    (u : AuthUserRec)
    (hv1 : passwordResetValidate e1 = [])
    (hv2 : passwordResetValidate e2 = [])
    (h1 : find_by_email db e1 = none)
    (h2 : find_by_email db e2 = some u) :
    (passwordResetRequestExecute db now1 tok1 e1).success = true ∧
    (passwordResetRequestExecute db now2 tok2 e2).success = true ∧
    requestPasswordResetResponseBody (passwordResetRequestExecute db now1 tok1 e1) =
      requestPasswordResetResponseBody (passwordResetRequestExecute db now2 tok2 e2) ∧
    (passwordResetRequestExecute db now1 tok1 e1).token = none ∧
    (passwordResetRequestExecute db now2 tok2 e2).token = some tok2 := by
  simp [passwordResetRequestExecute, hv1, hv2, h1, h2,
    requestPasswordResetResponseBody, generate_password_reset_token]

/-- Witness for C1: a one-user store, a missing and an existing email. -/
theorem password_reset_enumeration_resistant_witness :
    (passwordResetRequestExecute [⟨"u1", "a@x.com"⟩] 0 "t1" "b@x.com").success = true ∧
    (passwordResetRequestExecute [⟨"u1", "a@x.com"⟩] 7 "t2" "a@x.com").success = true ∧
    requestPasswordResetResponseBody
        (passwordResetRequestExecute [⟨"u1", "a@x.com"⟩] 0 "t1" "b@x.com") =
      requestPasswordResetResponseBody
        (passwordResetRequestExecute [⟨"u1", "a@x.com"⟩] 7 "t2" "a@x.com") ∧
    (passwordResetRequestExecute [⟨"u1", "a@x.com"⟩] 0 "t1" "b@x.com").token = none ∧
    (passwordResetRequestExecute [⟨"u1", "a@x.com"⟩] 7 "t2" "a@x.com").token = some "t2" :=
  password_reset_enumeration_resistant [⟨"u1", "a@x.com"⟩] 0 7 "t1" "t2"
    "b@x.com" "a@x.com" ⟨"u1", "a@x.com"⟩ (by decide) (by decide)
    (by decide) (by decide)

/-! ## Authentication — rate limiting
(`src/apps/authentication/domain/services.py`,
`src/backend/apps/authentication/infrastructure/repositories.py`) -/

/-- `LoginAttempt` domain entity (the fields the rate-limit path reads).
Times are in seconds. -/
structure LoginAttempt where
  id : Option String
  user_id : Option String
  email : String
  ip_address : String
  success : Bool
  attempted_at : Int
deriving DecidableEq, Repr

/-- `CacheLoginAttemptRepository.find_attempts_by_ip`: `save_attempt`
appends every attempt to the per-IP list keyed by its own IP, so the
stored per-IP list is exactly the IP-filtered history; the lookup then
keeps the entries at or after `now - window_minutes` minutes. -/
def find_attempts_by_ip (now : Int) (history : List LoginAttempt)
    (ip : String) (window_minutes : Int) : List LoginAttempt :=
  (history.filter (fun a => a.ip_address = ip)).filter
    (fun a => now - window_minutes * 60 ≤ a.attempted_at)

/-- `CacheLoginAttemptRepository.find_attempts_by_email`, symmetrically. -/
def find_attempts_by_email (now : Int) (history : List LoginAttempt)
    (email : String) (window_minutes : Int) : List LoginAttempt :=
  (history.filter (fun a => a.email = email)).filter
    (fun a => now - window_minutes * 60 ≤ a.attempted_at)

/-- `CacheLoginAttemptRepository.get_failed_attempts_count`. -/
def get_failed_attempts_count (now : Int) (history : List LoginAttempt)
    (email : String) (window_minutes : Int) : Nat :=
  ((find_attempts_by_email now history email window_minutes).filter
    (fun a => !a.success)).length

/-- `AuthenticationDomainService.is_ip_rate_limited(max_attempts=10,
window_minutes=15)`. -/
def is_ip_rate_limited (now : Int) (history : List LoginAttempt)
    (ip : String) (max_attempts : Nat) (window_minutes : Int) : Bool :=
  max_attempts ≤
    ((find_attempts_by_ip now history ip window_minutes).filter
      (fun a => !a.success)).length

/-- `AuthenticationDomainService.is_email_rate_limited(max_attempts=5,
window_minutes=15)`. -/
def is_email_rate_limited (now : Int) (history : List LoginAttempt)
    (email : String) (max_attempts : Nat) (window_minutes : Int) : Bool :=
  max_attempts ≤ get_failed_attempts_count now history email window_minutes

/-- C7: the IP check trips exactly when at least 10 failed attempts from
that IP lie in the last 15 minutes; the email check trips exactly when at
least 5 failed attempts for that email lie in the last 15 minutes; and
each check is unchanged under arbitrary rewriting of the field the other
check keys on (the IP verdict ignores emails, the email verdict ignores
source IPs), so the two are independent. -/
theorem rate_limit_checks_characterised_and_independent
    (now : Int) (history : List LoginAttempt) (ip email : String)
    (remap_email remap_ip : LoginAttempt → String) :
    (is_ip_rate_limited now history ip 10 15 = true ↔
      10 ≤ (history.filter (fun a =>
        a.ip_address = ip ∧ a.success = false ∧
          now - 15 * 60 ≤ a.attempted_at)).length) ∧
    (is_email_rate_limited now history email 5 15 = true ↔
      5 ≤ (history.filter (fun a =>
        a.email = email ∧ a.success = false ∧
          now - 15 * 60 ≤ a.attempted_at)).length) ∧
    is_ip_rate_limited now
        (history.map (fun a => { a with email := remap_email a })) ip 10 15 =
      is_ip_rate_limited now history ip 10 15 ∧
    is_email_rate_limited now
        (history.map (fun a => { a with ip_address := remap_ip a })) email 5 15 =
      is_email_rate_limited now history email 5 15 := by
  refine ⟨?_, ?_, ?_, ?_⟩
  · simp only [is_ip_rate_limited, find_attempts_by_ip, List.filter_filter,
      decide_eq_true_eq]
    constructor <;> intro h <;> [skip; skip] <;>
      · refine le_trans h (le_of_eq ?_)
        congr 1
        apply List.filter_congr
        intro a _
        cases hs : a.success <;> simp [hs, and_comm, and_left_comm, Bool.and_comm]
  · simp only [is_email_rate_limited, get_failed_attempts_count,
      find_attempts_by_email, List.filter_filter, decide_eq_true_eq]
    constructor <;> intro h <;> [skip; skip] <;>
      · refine le_trans h (le_of_eq ?_)
        congr 1
        apply List.filter_congr
        intro a _
        cases hs : a.success <;> simp [hs, and_comm, and_left_comm, Bool.and_comm]
  · simp only [is_ip_rate_limited, find_attempts_by_ip, List.filter_filter,
      List.filter_map, List.length_map, Function.comp]
  · simp only [is_email_rate_limited, get_failed_attempts_count,
      find_attempts_by_email, List.filter_filter, List.filter_map,
      List.length_map, Function.comp]

/-! ## Tasks domain — `src/apps/tasks/domain/entities.py`,
`src/apps/tasks/domain/services.py`,
`src/backend/apps/tasks/application/use_cases.py`

Times are in seconds.  Every `datetime.now()` reading during one
execution is modelled by the same instant `now`; no verified property
depends on distinguishing consecutive readings. -/

inductive TaskStatus
  | pending
  | in_progress
  | completed
  | cancelled
deriving DecidableEq, Repr

inductive TaskPriority
  | low
  | medium
  | high
  | urgent
deriving DecidableEq, Repr

structure Task where
  id : Option String
  title : String
  description : String
  priority : TaskPriority
  status : TaskStatus
  due_date : Option Int
  completed_at : Option Int
  user_id : String
  created_at : Option Int
deriving DecidableEq, Repr

/-- `Task.is_completed`. -/
def Task.is_completed (t : Task) : Bool := t.status = .completed

/-- `Task.mark_as_completed()`: raises if already completed, else sets
status `completed` and stamps `completed_at`. -/
def Task.mark_as_completed (now : Int) (t : Task) : Option String × Task :=
  if t.status = .completed then
    (some "Task is already completed", t)
  else
    (none, { t with status := .completed, completed_at := some now })

/-- The post-state of a guarded `mark_as_completed()` call (every call
site below checks `not task.is_completed` first, so the raising branch is
unreachable there). -/
def markCompleted (now : Int) (t : Task) : Task :=
  (Task.mark_as_completed now t).2

/-- Python `str.split()`: split on runs of whitespace, dropping empty
pieces. -/
def pyWordsAux : List Char → List Char → List String
  | [], cur => if cur = [] then [] else [String.mk cur.reverse]
  | c :: cs, cur =>
    if c.isWhitespace then
      if cur = [] then pyWordsAux cs []
      else String.mk cur.reverse :: pyWordsAux cs []
    else pyWordsAux cs (c :: cur)

def pySplit (s : String) : List String := pyWordsAux s.toList []

/-- Python `str.lower()` (ASCII range, which is all the sources use). -/
def pyLower (s : String) : String := String.mk (s.toList.map Char.toLower)

/-- Distinct elements of a word list (cardinality bookkeeping for
Python's `set(...)`). -/
def distinctWords : List String → List String
  | [] => []
  | w :: ws => if w ∈ ws then distinctWords ws else w :: distinctWords ws

/-- `len(set(ws1) & set(ws2))`. -/
def wordSetInterCard (ws1 ws2 : List String) : Nat :=
  ((distinctWords ws1).filter (fun w => w ∈ ws2)).length

/-- The similarity ratio of `TaskDomainService._are_tasks_related`: the
intersection of the lower-cased word sets of the two titles, divided by
the larger of the two (un-lowered) word counts.  Entity validation keeps
titles at ≥ 3 characters after trimming, so the denominator is never 0 in
the flows below. -/
def title_similarity (title1 title2 : String) : ℚ :=
  mkRat (wordSetInterCard (pySplit (pyLower title1)) (pySplit (pyLower title2)))
    (max (pySplit title1).length (pySplit title2).length)

/-- `TaskDomainService._are_tasks_related`: similarity strictly above
0.6 (`mkRat 3 5` is the exact rational 3/5 = 0.6; `mkRat` is exact
division, kept in that form so the kernel can evaluate it). -/
def are_tasks_related (t1 t2 : Task) : Bool :=
  decide (mkRat 3 5 < title_similarity t1.title t2.title)

/-- `TaskRepository.find_by_id`, over an in-memory store. -/
def find_by_id (db : List Task) (task_id : String) : Option Task :=
  db.find? (fun t => t.id = some task_id)

/-- `TaskRepository.find_by_user_id` (the `-created_at` ordering of the
Django implementation is immaterial to the verified properties). -/
def find_by_user_id (db : List Task) (uid : String) : List Task :=
  db.filter (fun t => t.user_id = uid)

/-- `TaskRepository.save`: the store keys rows by unique primary key;
saving replaces the row with the matching id, inserting when absent. -/
def save : List Task → Task → List Task
  | [], t => [t]
  | x :: xs, t => if x.id = t.id then t :: xs else x :: save xs t

/-- The loop guard of `auto_complete_related_tasks`: different id, not
yet completed, related. -/
def autoCompleteCond (ct t : Task) : Bool :=
  t.id != ct.id && !t.is_completed && are_tasks_related ct t

/-- The scan loop of `auto_complete_related_tasks`: iterate over the
snapshot of the owner's tasks, completing and saving each related
incomplete one, threading the store. -/
def autoCompleteScan (now : Int) (ct : Task) :
    List Task → List Task → List Task × List Task
  | db, [] => (db, [])
  | db, t :: rest =>
    if autoCompleteCond ct t then
      let t' := markCompleted now t
      let r := autoCompleteScan now ct (save db t') rest
      (r.1, t' :: r.2)
    else
      autoCompleteScan now ct db rest

/-- `TaskDomainService.auto_complete_related_tasks`: returns the updated
store and the list of newly auto-completed tasks. -/
def auto_complete_related_tasks (now : Int) (db : List Task) (ct : Task) :
    List Task × List Task :=
  if ct.is_completed = false then (db, [])
  else autoCompleteScan now ct db (find_by_user_id db ct.user_id)

/-! ### Productivity (`calculate_user_productivity`,
`GetUserProductivityUseCase`) -/

/-- The dict built by `calculate_user_productivity`.
`completed_tasks = none` models the absence of the `'completed_tasks'`
key: the empty-window branch returns a dict without it. -/
structure ProductivityMetrics where
  total_tasks : Nat
  completed_tasks : Option Nat
  completion_rate : ℚ
  average_completion_time : ℚ
  productivity_score : ℚ
deriving DecidableEq, Repr

/-- `TaskDomainService.calculate_user_productivity(user_id, days=30)`. -/
def calculate_user_productivity (now : Int) (db : List Task) (uid : String)
    (days : Int) : ProductivityMetrics :=
  let user_tasks := find_by_user_id db uid
  let cutoff := now - days * 86400
  let recent := user_tasks.filter (fun t =>
    match t.created_at with
    | none => false
    | some c => decide (cutoff ≤ c))
  if recent = [] then
    { total_tasks := 0
      completed_tasks := none
      completion_rate := 0
      average_completion_time := 0
      productivity_score := 0 }
  else
    let completed := recent.filter (fun t => t.is_completed)
    let completion_times : List ℚ := completed.filterMap (fun t =>
      match t.created_at, t.completed_at with
      | some c, some d => some (((d - c : Int) : ℚ) / 3600)
      | _, _ => none)
    let avg := if completion_times = [] then 0
      else completion_times.sum / (completion_times.length : ℚ)
    let rate := (completed.length : ℚ) / (recent.length : ℚ) * 100
    { total_tasks := recent.length
      completed_tasks := some completed.length
      completion_rate := rate
      average_completion_time := avg
      productivity_score :=
        min 100 (rate * (0.7 : ℚ) + (100 - min 100 avg) * (0.3 : ℚ)) }

/-- `ProductivityDTO`: its constructor requires every field, in
particular a `completed_tasks` count. -/
structure ProductivityDTO where
  total_tasks : Nat
  completed_tasks : Nat
  completion_rate : ℚ
  average_completion_time : ℚ
  productivity_score : ℚ
deriving DecidableEq, Repr

/-- `GetUserProductivityUseCase.execute`: builds the DTO by subscripting
the metrics dict; `productivity_data['completed_tasks']` raises
`KeyError` when the key is absent. -/
def getUserProductivityExecute (now : Int) (db : List Task) (uid : String)
    (days : Int) : Except String ProductivityDTO :=
  let p := calculate_user_productivity now db uid days
  match p.completed_tasks with
  | none => .error "KeyError: completed_tasks"
  | some c =>
    .ok { total_tasks := p.total_tasks
          completed_tasks := c
          completion_rate := p.completion_rate
          average_completion_time := p.average_completion_time
          productivity_score := p.productivity_score }

/-- C5 (code bug): with no task in the window the calculation returns the
four-key all-zero dict *without* a `completed_tasks` entry, so the
`GetUserProductivity` use case, which unconditionally subscripts
`'completed_tasks'`, raises `KeyError` instead of returning zero
metrics. -/
theorem get_user_productivity_keyerror_on_empty_window
    (now : Int) (uid : String) (days : Int) :
    calculate_user_productivity now [] uid days =
      { total_tasks := 0
        completed_tasks := none
        completion_rate := 0
        average_completion_time := 0
        productivity_score := 0 } ∧
    getUserProductivityExecute now [] uid days =
      .error "KeyError: completed_tasks" := by
  simp [calculate_user_productivity, getUserProductivityExecute,
    find_by_user_id]

/-! ### Filtered query ordering
(`src/apps/tasks/infrastructure/repositories.py` `find_with_filter`,
`src/backend/apps/tasks/infrastructure/models.py` and
`src/api/models.py` `Meta.ordering = ['-priority', 'due_date',
'-created_at']`).

The stored row keeps `priority` as its short string code
(`'low' | 'medium' | 'high' | 'urgent'`), exactly as the `CharField`
does, so `ORDER BY priority DESC` compares those strings
lexicographically.  The store is PostgreSQL
(`config/settings/development.py`), where ascending order puts NULLs
last. -/

structure TaskModelRow where
  id : String
  title : String
  description : String
  priority : String
  status : String
  due_date : Option Int
  completed_at : Option Int
  user_id : String
  created_at : Int
deriving DecidableEq, Repr

/-- The `TaskFilter` criteria that `find_with_filter` translates into
queryset filters. -/
structure TaskFilterQ where
  user_id : Option String
  status : Option String
  priority : Option String
  overdue_only : Bool
  due_date_from : Option Int
  due_date_to : Option Int
  search_term : Option String
deriving DecidableEq, Repr

/-- A filter with no criteria set. -/
def emptyTaskFilter : TaskFilterQ :=
  { user_id := none
    status := none
    priority := none
    overdue_only := false
    due_date_from := none
    due_date_to := none
    search_term := none }

/-- Django `icontains`: case-insensitive substring match. -/
def lowerChars (s : String) : List Char := s.toList.map Char.toLower

def charsContainSub (hay needle : List Char) : Bool :=
  (List.range (hay.length + 1)).any (fun i => needle.isPrefixOf (hay.drop i))

def icontains (hay needle : String) : Bool :=
  charsContainSub (lowerChars hay) (lowerChars needle)

/-- The compound filter of `find_with_filter` (logical AND of the
criteria that are set; `user_id` and `search_term` are skipped when empty
strings, matching Python truthiness of the `if task_filter.x:` guards). -/
def matchesFilter (now : Int) (f : TaskFilterQ) (t : TaskModelRow) : Bool :=
  (match f.user_id with
    | none => true
    | some u => u = "" || t.user_id = u) &&
  (match f.status with
    | none => true
    | some s => t.status = s) &&
  (match f.priority with
    | none => true
    | some p => t.priority = p) &&
  (!f.overdue_only ||
    ((match t.due_date with
      | none => false
      | some d => decide (d < now)) &&
     (t.status = "pending" || t.status = "in_progress"))) &&
  (match f.due_date_from with
    | none => true
    | some d => match t.due_date with
      | none => false
      | some td => decide (d ≤ td)) &&
  (match f.due_date_to with
    | none => true
    | some d => match t.due_date with
      | none => false
      | some td => decide (td ≤ d)) &&
  (match f.search_term with
    | none => true
    | some s => s = "" || (icontains t.title s || icontains t.description s))

/-- Strict lexicographic order on character lists (code-point order —
the byte order PostgreSQL's C collation applies to these ASCII codes). -/
def charListLtB : List Char → List Char → Bool
  | [], [] => false
  | [], _ :: _ => true
  | _ :: _, [] => false
  | a :: as, b :: bs =>
    if a < b then true
    else if b < a then false
    else charListLtB as bs

/-- Strict lexicographic order on strings. -/
def strLtB (a b : String) : Bool := charListLtB a.toList b.toList

/-- Ascending `due_date` with NULLs last (PostgreSQL `ASC`). -/
def dueBeforeB : Option Int → Option Int → Bool
  | some x, some y => decide (x < y)
  | some _, none => true
  | none, _ => false

/-- The row comparator actually produced by
`order_by('-priority', 'due_date', '-created_at')`: `priority` strings
descending (lexicographically), then due date ascending (NULLs last),
then creation time descending. -/
def rowLeB (a b : TaskModelRow) : Bool :=
  strLtB b.priority a.priority ||
    (b.priority = a.priority &&
      (dueBeforeB a.due_date b.due_date ||
        (a.due_date = b.due_date && decide (b.created_at ≤ a.created_at))))

def rowLe (a b : TaskModelRow) : Prop := rowLeB a b = true

instance : DecidableRel rowLe := fun a b =>
  inferInstanceAs (Decidable (rowLeB a b = true))

theorem charListLtB_trans : ∀ {as bs cs : List Char},
    charListLtB as bs = true → charListLtB bs cs = true →
    charListLtB as cs = true
  | [], [], _, h1, _ => absurd h1 (by simp [charListLtB])
  | [], _ :: _, [], _, h2 => absurd h2 (by simp [charListLtB])
  | [], _ :: _, _ :: _, _, _ => by simp [charListLtB]
  | _ :: _, [], _, h1, _ => absurd h1 (by simp [charListLtB])
  | _ :: _, _ :: _, [], _, h2 => absurd h2 (by simp [charListLtB])
  | a :: as, b :: bs, c :: cs, h1, h2 => by
    rcases lt_trichotomy a b with h₁ | h₁ | h₁
    · rcases lt_trichotomy b c with h₂ | h₂ | h₂
      · simp [charListLtB, lt_trans h₁ h₂]
      · subst h₂; simp [charListLtB, h₁]
      · simp only [charListLtB] at h2
        rw [if_neg (lt_asymm h₂), if_pos h₂] at h2
        exact absurd h2 (by simp)
    · subst h₁
      rcases lt_trichotomy a c with h₂ | h₂ | h₂
      · simp [charListLtB, h₂]
      · subst h₂
        simp only [charListLtB, lt_irrefl, if_false] at h1 h2 ⊢
        exact charListLtB_trans h1 h2
      · simp only [charListLtB] at h2
        rw [if_neg (lt_asymm h₂), if_pos h₂] at h2
        exact absurd h2 (by simp)
    · simp only [charListLtB] at h1
      rw [if_neg (lt_asymm h₁), if_pos h₁] at h1
      exact absurd h1 (by simp)

theorem charListLtB_total : ∀ as bs : List Char,
    charListLtB as bs = true ∨ charListLtB bs as = true ∨ as = bs
  | [], [] => Or.inr (Or.inr rfl)
  | [], _ :: _ => Or.inl (by simp [charListLtB])
  | _ :: _, [] => Or.inr (Or.inl (by simp [charListLtB]))
  | a :: as, b :: bs => by
    rcases lt_trichotomy a b with h | h | h
    · exact Or.inl (by simp [charListLtB, h])
    · subst h
      rcases charListLtB_total as bs with h' | h' | h'
      · exact Or.inl (by simp [charListLtB, h'])
      · exact Or.inr (Or.inl (by simp [charListLtB, h']))
      · exact Or.inr (Or.inr (by rw [h']))
    · exact Or.inr (Or.inl (by simp [charListLtB, h, lt_asymm h]))

theorem strLtB_total (a b : String) :
    strLtB a b = true ∨ strLtB b a = true ∨ a = b := by
  rcases charListLtB_total a.toList b.toList with h | h | h
  · exact Or.inl h
  · exact Or.inr (Or.inl h)
  · refine Or.inr (Or.inr ?_)
    cases a; cases b
    exact congrArg String.mk (by simpa [String.toList] using h)

theorem dueBeforeB_trans {o1 o2 o3 : Option Int}
    (h1 : dueBeforeB o1 o2 = true) (h2 : dueBeforeB o2 o3 = true) :
    dueBeforeB o1 o3 = true := by
  cases o1 <;> cases o2 <;> cases o3 <;>
    simp [dueBeforeB] at * <;> omega

instance : IsTotal TaskModelRow rowLe where
  total a b := by
    unfold rowLe rowLeB
    rcases strLtB_total a.priority b.priority with h | h | h
    · exact Or.inr (by simp [h])
    · exact Or.inl (by simp [h])
    · rcases hd : dueBeforeB a.due_date b.due_date with _ | _
      · rcases hd' : dueBeforeB b.due_date a.due_date with _ | _
        · have hde : a.due_date = b.due_date := by
            rcases ha : a.due_date with _ | x <;>
              rcases hb : b.due_date with _ | y <;>
              simp_all [dueBeforeB]
            omega
          rcases le_total b.created_at a.created_at with hc | hc
          · exact Or.inl (by simp [h, hde, decide_eq_true hc])
          · exact Or.inr (by simp [h, hde.symm, decide_eq_true hc])
        · exact Or.inr (by simp [h, hd'])
      · exact Or.inl (by simp [h, hd])

instance : IsTrans TaskModelRow rowLe where
  trans a b c hab hbc := by
    unfold rowLe rowLeB at hab hbc ⊢
    simp only [Bool.or_eq_true, Bool.and_eq_true, decide_eq_true_eq]
      at hab hbc ⊢
    rcases hab with h1 | ⟨e1, d1⟩ <;> rcases hbc with h2 | ⟨e2, d2⟩
    · exact Or.inl (charListLtB_trans h2 h1)
    · exact Or.inl (by rw [e2]; exact h1)
    · exact Or.inl (by rw [← e1]; exact h2)
    · refine Or.inr ⟨e2.trans e1, ?_⟩
      rcases d1 with p1 | ⟨q1, c1⟩ <;> rcases d2 with p2 | ⟨q2, c2⟩
      · exact Or.inl (dueBeforeB_trans p1 p2)
      · exact Or.inl (by rw [← q2]; exact p1)
      · exact Or.inl (by rw [q1]; exact p2)
      · exact Or.inr ⟨q1.trans q2, le_trans c2 c1⟩

/-- `find_with_filter`: filter, then order by the comparator above.  The
same comparator is the `Meta.ordering` of both stored task models, so it
is also the legacy listing order. -/
def find_with_filter (now : Int) (db : List TaskModelRow) (f : TaskFilterQ) :
    List TaskModelRow :=
  List.insertionSort rowLe (db.filter (matchesFilter now f))

/-- The ordering the claim asserts, written from its words: descending
priority under the semantic order low < medium < high < urgent, then
ascending due date, then descending creation time. -/
def semanticPriorityRank : String → Nat
  | "medium" => 1
  | "high" => 2
  | "urgent" => 3
  | _ => 0

def specSemanticRowLeB (a b : TaskModelRow) : Bool :=
  decide (semanticPriorityRank b.priority < semanticPriorityRank a.priority) ||
    (semanticPriorityRank b.priority = semanticPriorityRank a.priority &&
      (dueBeforeB a.due_date b.due_date ||
        (a.due_date = b.due_date && decide (b.created_at ≤ a.created_at))))

def specSemanticRowLe (a b : TaskModelRow) : Prop :=
  specSemanticRowLeB a b = true

instance : DecidableRel specSemanticRowLe := fun a b =>
  inferInstanceAs (Decidable (specSemanticRowLeB a b = true))

/-- A `low`-priority and a `high`-priority row, otherwise identical. -/
def rowLowPr : TaskModelRow :=
  { id := "1"
    title := "aaa"
    description := ""
    priority := "low"
    status := "pending"
    due_date := some 0
    completed_at := none
    user_id := "u"
    created_at := 0 }

def rowHighPr : TaskModelRow :=
  { rowLowPr with id := "2", priority := "high" }

/-- C6 counterexample: on a store holding a `low`-priority and a
`high`-priority task (same due date and creation time), the filtered
query returns the `low` task first, because `'-priority'` sorts the
stored string codes and `"low" > "high"` lexicographically — so the
result is not ordered by descending priority under the semantic order
low < medium < high < urgent. -/
theorem find_with_filter_not_semantic_priority_order :
    find_with_filter 0 [rowLowPr, rowHighPr] emptyTaskFilter =
      [rowLowPr, rowHighPr] ∧
    ¬ List.Sorted specSemanticRowLe
      (find_with_filter 0 [rowLowPr, rowHighPr] emptyTaskFilter) := by
  constructor
  · decide
  · decide

/-- C6 amended: every result list of the filtered task query (the same
`['-priority', 'due_date', '-created_at']` ordering both stored task
models declare as their default) is ordered by descending *lexicographic*
order of the priority string codes — i.e. urgent > medium > low > high —
then ascending due date (NULLs last), then descending creation time. -/
theorem find_with_filter_sorted_by_stored_ordering
    (now : Int) (db : List TaskModelRow) (f : TaskFilterQ) :
    List.Sorted rowLe (find_with_filter now db f) :=
  List.sorted_insertionSort rowLe (db.filter (matchesFilter now f))

/-! ### Store lemmas for `save` / `find_by_id` -/

theorem markCompleted_id (now : Int) (t : Task) :
    (markCompleted now t).id = t.id := by
  unfold markCompleted Task.mark_as_completed
  split <;> rfl

theorem markCompleted_is_completed (now : Int) (t : Task)
    (h : t.is_completed = false) :
    (markCompleted now t).is_completed = true := by
  unfold markCompleted Task.mark_as_completed Task.is_completed at *
  simp only [decide_eq_false_iff_not] at h
  simp [h]

theorem find_by_id_save_self (t : Task) (tid : String) (h : t.id = some tid) :
    ∀ db : List Task, find_by_id (save db t) tid = some t
  | [] => by simp [save, find_by_id, h]
  | x :: xs => by
    by_cases hx : x.id = t.id
    · simp only [save, if_pos hx]
      simp [find_by_id, h]
    · simp only [save, if_neg hx]
      have hxid : ¬ (x.id = some tid) := by rw [← h]; exact hx
      simp only [find_by_id]
      rw [List.find?_cons_of_neg _ (by simpa using hxid)]
      exact find_by_id_save_self t tid h xs

theorem find_by_id_save_other (t : Task) (tid : String) (h : t.id ≠ some tid) :
    ∀ db : List Task, find_by_id (save db t) tid = find_by_id db tid
  | [] => by
    simp only [save, find_by_id]
    rw [List.find?_cons_of_neg _ (by simpa using h)]
  | x :: xs => by
    by_cases hx : x.id = t.id
    · have hxid : ¬ (x.id = some tid) := by rw [hx]; exact h
      simp only [save, if_pos hx, find_by_id]
      rw [List.find?_cons_of_neg _ (by simpa using h),
        List.find?_cons_of_neg _ (by simpa using hxid)]
    · simp only [save, if_neg hx, find_by_id]
      by_cases hxtid : x.id = some tid
      · rw [List.find?_cons_of_pos _ (by simpa using hxtid),
          List.find?_cons_of_pos _ (by simpa using hxtid)]
      · rw [List.find?_cons_of_neg _ (by simpa using hxtid),
          List.find?_cons_of_neg _ (by simpa using hxtid)]
        exact find_by_id_save_other t tid h xs

theorem find_by_id_foldl_save_of_notmem (tid : String) :
    ∀ (l db : List Task), (∀ m ∈ l, m.id ≠ some tid) →
      find_by_id (l.foldl save db) tid = find_by_id db tid
  | [], _, _ => rfl
  | m :: ms, db, h => by
    rw [List.foldl_cons,
      find_by_id_foldl_save_of_notmem tid ms _
        (fun x hx => h x (List.mem_cons_of_mem _ hx)),
      find_by_id_save_other m tid (h m (List.mem_cons_self _ _))]

theorem find_by_id_foldl_save_found (tid : String) (u' : Task)
    (hu : u'.id = some tid) (l1 l2 db : List Task)
    (h2 : ∀ m ∈ l2, m.id ≠ some tid) :
    find_by_id ((l1 ++ u' :: l2).foldl save db) tid = some u' := by
  rw [List.foldl_append, List.foldl_cons,
    find_by_id_foldl_save_of_notmem tid l2 _ h2,
    find_by_id_save_self u' tid hu]

theorem find_by_id_of_mem_nodup :
    ∀ (db : List Task) (u : Task) (uid : String), u ∈ db →
      u.id = some uid → (db.map Task.id).Nodup →
      find_by_id db uid = some u
  | [], u, uid, hmem, _, _ => absurd hmem (List.not_mem_nil u)
  | x :: xs, u, uid, hmem, hid, hnd => by
    rcases List.mem_cons.mp hmem with rfl | hmem'
    · simp [find_by_id, hid]
    · have hnd' := hnd
      rw [List.map_cons, List.nodup_cons] at hnd'
      have hx : ¬ (x.id = some uid) := by
        intro hcontra
        exact hnd'.1 (by
          rw [hcontra, ← hid]
          exact List.mem_map_of_mem Task.id hmem')
      simp only [find_by_id]
      rw [List.find?_cons_of_neg _ (by simpa using hx)]
      exact find_by_id_of_mem_nodup xs u uid hmem' hid hnd'.2

theorem eq_of_mem_nodup_id :
    ∀ (db : List Task), (db.map Task.id).Nodup →
      ∀ u w : Task, u ∈ db → w ∈ db → w.id = u.id → w = u
  | [], _, u, _, hu, _, _ => absurd hu (List.not_mem_nil u)
  | x :: xs, hnd, u, w, hu, hw, hid => by
    have hnd' := hnd
    rw [List.map_cons, List.nodup_cons] at hnd'
    rcases List.mem_cons.mp hu with rfl | hu' <;>
      rcases List.mem_cons.mp hw with rfl | hw'
    · rfl
    · exact absurd (hid ▸ List.mem_map_of_mem Task.id hw') hnd'.1
    · exact absurd (hid ▸ List.mem_map_of_mem Task.id hu') (by
        rw [hid] at hnd' ⊢
        exact fun hm => hnd'.1 (hid ▸ hm))
    · exact eq_of_mem_nodup_id xs hnd'.2 u w hu' hw' hid

theorem autoCompleteScan_eq (now : Int) (ct : Task) :
    ∀ (ts db : List Task),
      autoCompleteScan now ct db ts =
        (((ts.filter (autoCompleteCond ct)).map (markCompleted now)).foldl
            save db,
         (ts.filter (autoCompleteCond ct)).map (markCompleted now))
  | [], db => rfl
  | t :: rest, db => by
    cases h : autoCompleteCond ct t <;>
      simp [autoCompleteScan, h, List.filter_cons,
        autoCompleteScan_eq now ct rest]

/-- C4: for a completed task `ct` and any other incomplete task `u` of
the same owner in the store, `auto_complete_related_tasks` marks `u`
completed, persists it, and returns it among the newly completed tasks
exactly when the intersection of the two titles' lower-cased word sets,
divided by the larger of the two titles' word counts, exceeds 0.6;
otherwise `u` is left untouched in the store and is absent from the
returned list. -/
theorem auto_complete_related_tasks_exact
    (now : Int) (db : List Task) (ct u : Task) (uid : String)
    (hnd : (db.map Task.id).Nodup)
    (hct : ct.is_completed = true)
    (hmem : u ∈ db)
    (hown : u.user_id = ct.user_id)
    (hid : u.id = some uid)
    (hne : u.id ≠ ct.id)
    (hunc : u.is_completed = false) :
    (mkRat 3 5 < title_similarity ct.title u.title →
      markCompleted now u ∈ (auto_complete_related_tasks now db ct).2 ∧
      find_by_id (auto_complete_related_tasks now db ct).1 uid =
        some (markCompleted now u) ∧
      (markCompleted now u).is_completed = true) ∧
    (¬ mkRat 3 5 < title_similarity ct.title u.title →
      (∀ v ∈ (auto_complete_related_tasks now db ct).2, v.id ≠ some uid) ∧
      find_by_id (auto_complete_related_tasks now db ct).1 uid = some u) := by
  have hexp : auto_complete_related_tasks now db ct =
      ((((find_by_user_id db ct.user_id).filter
          (autoCompleteCond ct)).map (markCompleted now)).foldl save db,
       ((find_by_user_id db ct.user_id).filter
          (autoCompleteCond ct)).map (markCompleted now)) := by
    unfold auto_complete_related_tasks
    rw [hct]
    simp only [Bool.true_eq_false, if_false]
    exact autoCompleteScan_eq now ct _ db
  set marks := ((find_by_user_id db ct.user_id).filter
    (autoCompleteCond ct)).map (markCompleted now) with hmarksdef
  have hmarks_src : ∀ m ∈ marks, ∃ w, w ∈ db ∧
      autoCompleteCond ct w = true ∧ m = markCompleted now w := by
    intro m hm
    rcases List.mem_map.mp hm with ⟨w, hwf, rfl⟩
    rcases List.mem_filter.mp hwf with ⟨hwu, hwc⟩
    exact ⟨w, (List.mem_filter.mp hwu).1, hwc, rfl⟩
  have hmarks_ids : (marks.map Task.id).Nodup := by
    have h1 : marks.map Task.id =
        ((find_by_user_id db ct.user_id).filter
          (autoCompleteCond ct)).map Task.id := by
      rw [hmarksdef, List.map_map]
      exact List.map_congr_left (fun t _ => markCompleted_id now t)
    have h2 : ((find_by_user_id db ct.user_id).filter
        (autoCompleteCond ct)).Sublist db :=
      (List.filter_sublist _).trans (List.filter_sublist _)
    rw [h1]
    exact List.Nodup.sublist (h2.map Task.id) hnd
  constructor
  · intro hrel
    have hcond : autoCompleteCond ct u = true := by
      simp [autoCompleteCond, hne, hunc, are_tasks_related, hrel]
    have humem : u ∈ (find_by_user_id db ct.user_id).filter
        (autoCompleteCond ct) :=
      List.mem_filter.mpr
        ⟨List.mem_filter.mpr ⟨hmem, by simp [hown]⟩, hcond⟩
    have hm : markCompleted now u ∈ marks :=
      List.mem_map_of_mem (markCompleted now) humem
    refine ⟨by rw [hexp]; exact hm, ?_, markCompleted_is_completed now u hunc⟩
    rcases List.append_of_mem hm with ⟨l1, l2, hsplit⟩
    have hndl : ((l1 ++ markCompleted now u :: l2).map Task.id).Nodup := by
      rw [← hsplit]; exact hmarks_ids
    rw [List.map_append, List.map_cons] at hndl
    have hl2 : ∀ m ∈ l2, m.id ≠ some uid := by
      intro m hm2 hcontra
      have hnotmem := (List.nodup_cons.mp (List.nodup_append.mp hndl).2.1).1
      exact hnotmem (by
        rw [markCompleted_id, hid, ← hcontra]
        exact List.mem_map_of_mem Task.id hm2)
    rw [hexp]
    simp only
    rw [hsplit]
    exact find_by_id_foldl_save_found uid (markCompleted now u)
      ((markCompleted_id now u).trans hid) l1 l2 db hl2
  · intro hnrel
    have hnomem : ∀ m ∈ marks, m.id ≠ some uid := by
      intro m hm hcontra
      rcases hmarks_src m hm with ⟨w, hwdb, hwc, rfl⟩
      have hwid : w.id = u.id := by
        rw [hid, ← hcontra, markCompleted_id]
      have : w = u := eq_of_mem_nodup_id db hnd u w hmem hwdb hwid
      subst this
      simp only [autoCompleteCond, are_tasks_related, Bool.and_eq_true,
        decide_eq_true_eq] at hwc
      exact hnrel hwc.2
    constructor
    · rw [hexp]; exact hnomem
    · rw [hexp]
      simp only
      rw [find_by_id_foldl_save_of_notmem uid marks db hnomem]
      exact find_by_id_of_mem_nodup db u uid hmem hid hnd

/-- A completed task and a same-owner incomplete task with 2/3 title word
overlap, for the C4 witness. -/
def ctW : Task :=
  { id := some "t1"
    title := "buy milk today"
    description := ""
    priority := .medium
    status := .completed
    due_date := none
    completed_at := some 0
    user_id := "u1"
    created_at := some 0 }

def uW : Task :=
  { id := some "t2"
    title := "buy milk"
    description := ""
    priority := .medium
    status := .pending
    due_date := none
    completed_at := none
    user_id := "u1"
    created_at := some 0 }

/-- Witness for C4: `"buy milk"` vs `"buy milk today"` has similarity
2/3 > 0.6, so the incomplete task is auto-completed, persisted and
returned. -/
theorem auto_complete_related_tasks_exact_witness :
    mkRat 3 5 < title_similarity ctW.title uW.title ∧
    markCompleted 0 uW ∈ (auto_complete_related_tasks 0 [ctW, uW] ctW).2 ∧
    find_by_id (auto_complete_related_tasks 0 [ctW, uW] ctW).1 "t2" =
      some (markCompleted 0 uW) ∧
    (markCompleted 0 uW).is_completed = true :=
  have h := auto_complete_related_tasks_exact 0 [ctW, uW] ctW uW "t2"
    (by decide) (by decide) (by decide) (by decide) (by decide) (by decide)
    (by decide)
  have hrel : mkRat 3 5 < title_similarity ctW.title uW.title := by decide
  ⟨hrel, (h.1 hrel).1, (h.1 hrel).2.1, (h.1 hrel).2.2⟩

/-! ### Bulk completion (`BulkCompleteTasksUseCase.execute`) -/

/-- The per-id loop of `BulkCompleteTasksUseCase.execute`: skip missing
ids, skip tasks of other owners, skip already-completed tasks; otherwise
mark complete, save, cascade related-task auto-completion, and aggregate.
Returns (store, updated_count, auto_completed_tasks). -/
def bulkCompleteLoop (now : Int) (uid : String) :
    List Task → List String → List Task × Nat × List Task
  | db, [] => (db, 0, [])
  | db, tid :: rest =>
    match find_by_id db tid with
    | none => bulkCompleteLoop now uid db rest
    | some t =>
      if t.user_id ≠ uid then bulkCompleteLoop now uid db rest
      else if t.is_completed then bulkCompleteLoop now uid db rest
      else
        let t' := markCompleted now t
        let ac := auto_complete_related_tasks now (save db t') t'
        let r := bulkCompleteLoop now uid ac.1 rest
        (r.1, r.2.1 + 1, ac.2 ++ r.2.2)

/-- `BulkCompleteTasksUseCase.execute`: raises on an empty id list,
otherwise runs the loop. -/
def bulkCompleteExecute (now : Int) (db : List Task) (uid : String)
    (task_ids : List String) : Except String (List Task × Nat × List Task) :=
  if task_ids = [] then .error "No task IDs provided"
  else .ok (bulkCompleteLoop now uid db task_ids)

/-- Tasks for the C3 counterexample: two caller-owned tasks (one already
completed), one foreign task, pairwise-unrelated titles. -/
def taskOwnedDone : Task :=
  { id := some "a"
    title := "alpha one"
    description := ""
    priority := .medium
    status := .completed
    due_date := none
    completed_at := some 0
    user_id := "u1"
    created_at := some 0 }

def taskOwnedPending : Task :=
  { taskOwnedDone with
    id := some "b"
    title := "beta two"
    status := .pending
    completed_at := none }

def taskForeign : Task :=
  { taskOwnedDone with
    id := some "c"
    title := "gamma three"
    status := .pending
    completed_at := none
    user_id := "u2" }

/-- C3 counterexample: caller `u1`, ids `["missing", "c", "a", "b"]`
against a store where `a` (already completed) and `b` (pending) belong to
`u1` and `c` to `u2`.  The caller-owned subset of the ids has size 2, but
the use case reports `updated_count = 1`: it silently skips the
already-completed caller-owned task, so the count is not the size of the
caller-owned subset. -/
theorem bulk_complete_count_not_owned_subset_size :
    (bulkCompleteExecute 0 [taskOwnedDone, taskOwnedPending, taskForeign]
        "u1" ["missing", "c", "a", "b"]).toOption.map (fun r => r.2.1) =
      some 1 ∧
    (["missing", "c", "a", "b"].filter (fun tid =>
      (find_by_id [taskOwnedDone, taskOwnedPending, taskForeign] tid).any
        (fun t => t.user_id = "u1"))).length = 2 ∧
    (1 : Nat) ≠ 2 := by
  refine ⟨by decide, by decide, by decide⟩

/-! ### Helper lemmas for the amended bulk-completion theorem -/

theorem markCompleted_user_id (now : Int) (t : Task) :
    (markCompleted now t).user_id = t.user_id := by
  unfold markCompleted Task.mark_as_completed
  split <;> rfl

theorem markCompleted_title (now : Int) (t : Task) :
    (markCompleted now t).title = t.title := by
  unfold markCompleted Task.mark_as_completed
  split <;> rfl

/-- Mark the caller-owned tasks named by `ids`, leave the rest alone. -/
def completeListed (now : Int) (uid : String) (ids : List String)
    (x : Task) : Task :=
  if x.user_id = uid ∧ ∃ tid ∈ ids, x.id = some tid then
    markCompleted now x
  else x

theorem completeListed_id (now : Int) (uid : String) (ids : List String)
    (x : Task) : (completeListed now uid ids x).id = x.id := by
  unfold completeListed
  split
  · exact markCompleted_id now x
  · rfl

theorem completeListed_user_id (now : Int) (uid : String)
    (ids : List String) (x : Task) :
    (completeListed now uid ids x).user_id = x.user_id := by
  unfold completeListed
  split
  · exact markCompleted_user_id now x
  · rfl

theorem completeListed_title (now : Int) (uid : String) (ids : List String)
    (x : Task) : (completeListed now uid ids x).title = x.title := by
  unfold completeListed
  split
  · exact markCompleted_title now x
  · rfl

theorem find_by_id_map (g : Task → Task) (hg : ∀ x, (g x).id = x.id)
    (tid : String) :
    ∀ db : List Task, find_by_id (db.map g) tid = (find_by_id db tid).map g
  | [] => rfl
  | x :: xs => by
    by_cases hx : x.id = some tid
    · simp only [find_by_id, List.map_cons]
      rw [List.find?_cons_of_pos _ (by simp [hg, hx]),
        List.find?_cons_of_pos _ (by simpa using hx)]
      rfl
    · simp only [find_by_id, List.map_cons]
      rw [List.find?_cons_of_neg _ (by simp [hg, hx]),
        List.find?_cons_of_neg _ (by simpa using hx)]
      exact find_by_id_map g hg tid xs

theorem save_map_eq (g : Task → Task) (hg : ∀ x, (g x).id = x.id)
    (t0 t' : Task) (hid' : t'.id = t0.id) :
    ∀ db : List Task, (db.map Task.id).Nodup → t0 ∈ db →
      save (db.map g) t' = db.map (fun x => if x.id = t0.id then t' else g x)
  | [], _, ht0 => absurd ht0 (List.not_mem_nil t0)
  | x :: xs, hnd, ht0 => by
    have hnd' := hnd
    rw [List.map_cons, List.nodup_cons] at hnd'
    by_cases hx : x.id = t0.id
    · simp only [List.map_cons, save, hg, hx, hid', if_pos]
      congr 1
      apply List.map_congr_left
      intro y hy
      have hyne : ¬ (y.id = t0.id) := by
        intro hcontra
        exact hnd'.1 (by rw [hx, ← hcontra]; exact List.mem_map_of_mem _ hy)
      rw [if_neg hyne]
    · have ht0' : t0 ∈ xs := by
        rcases List.mem_cons.mp ht0 with rfl | h
        · exact absurd rfl hx
        · exact h
      simp only [List.map_cons, save]
      rw [if_neg (by rw [hg, hid']; exact hx), if_neg hx]
      rw [save_map_eq g hg t0 t' hid' xs hnd'.2 ht0']

theorem autoCompleteScan_skip_all (now : Int) (ct : Task) :
    ∀ (ts db : List Task), (∀ t ∈ ts, autoCompleteCond ct t = false) →
      autoCompleteScan now ct db ts = (db, [])
  | [], _, _ => rfl
  | t :: rest, db, h => by
    simp only [autoCompleteScan, h t (List.mem_cons_self _ _),
      Bool.false_eq_true, if_false]
    exact autoCompleteScan_skip_all now ct rest db
      (fun x hx => h x (List.mem_cons_of_mem _ hx))

/-- The cascade fires nothing when every stored task either is the
completed task itself (same id) or has an unrelated title. -/
theorem auto_complete_no_related (now : Int) (db : List Task) (ct : Task)
    (h : ∀ t ∈ db, t.id = ct.id ∨ are_tasks_related ct t = false) :
    auto_complete_related_tasks now db ct = (db, []) := by
  unfold auto_complete_related_tasks
  split
  · rfl
  · apply autoCompleteScan_skip_all
    intro t ht
    rcases h t (List.mem_filter.mp ht).1 with hid | hrel
    · simp [autoCompleteCond, hid]
    · simp [autoCompleteCond, hrel]

theorem completeListed_notid (now : Int) (uid : String) (x : Task)
    (tid : String) (S rest : List String) (hx : x.id ≠ some tid) :
    completeListed now uid (S ++ tid :: rest) x =
      completeListed now uid (S ++ rest) x := by
  unfold completeListed
  have hiff : (∃ t ∈ S ++ tid :: rest, x.id = some t) ↔
      (∃ t ∈ S ++ rest, x.id = some t) := by
    constructor
    · rintro ⟨t, ht, hxe⟩
      rcases List.mem_append.mp ht with h | h
      · exact ⟨t, List.mem_append_left _ h, hxe⟩
      · rcases List.mem_cons.mp h with rfl | h
        · exact absurd hxe hx
        · exact ⟨t, List.mem_append_right _ h, hxe⟩
    · rintro ⟨t, ht, hxe⟩
      rcases List.mem_append.mp ht with h | h
      · exact ⟨t, List.mem_append_left _ h, hxe⟩
      · exact ⟨t, List.mem_append_right _ (List.mem_cons_of_mem _ h), hxe⟩
  rw [if_congr (and_congr_right fun _ => hiff) rfl rfl]

theorem completeListed_notuser (now : Int) (uid : String) (x : Task)
    (ids ids' : List String) (hx : x.user_id ≠ uid) :
    completeListed now uid ids x = completeListed now uid ids' x := by
  unfold completeListed
  rw [if_neg (fun h => hx h.1), if_neg (fun h => hx h.1)]

/-- Characterisation of the bulk-complete loop when the store has unique
ids, no two stored titles are related, the ids are distinct and disjoint
from the already-processed set `S`, and every listed caller-owned task is
still incomplete: the loop completes exactly the caller-owned listed
tasks, counts the ids resolving to caller-owned tasks, and the cascade
contributes nothing. -/
theorem bulkCompleteLoop_char (now : Int) (uid : String) (db : List Task)
    (hnd : (db.map Task.id).Nodup)
    (htitles : ∀ t1 ∈ db, ∀ t2 ∈ db, t1.id ≠ t2.id →
      ¬ mkRat 3 5 < title_similarity t1.title t2.title) :
    ∀ (ids S : List String),
      ids.Nodup →
      (∀ tid ∈ ids, tid ∉ S) →
      (∀ tid ∈ ids, ∀ t ∈ db, t.id = some tid → t.user_id = uid →
        t.is_completed = false) →
      bulkCompleteLoop now uid (db.map (completeListed now uid S)) ids =
        (db.map (completeListed now uid (S ++ ids)),
         (ids.filter (fun tid => (find_by_id db tid).any
           (fun t => t.user_id = uid))).length,
         ([] : List Task))
  | [], S, _, _, _ => by simp [bulkCompleteLoop]
  | tid :: rest, S, hids, hdisj, howned => by
    have hndrest : rest.Nodup := (List.nodup_cons.mp hids).2
    have htidrest : tid ∉ rest := (List.nodup_cons.mp hids).1
    have hfm := find_by_id_map (completeListed now uid S)
      (completeListed_id now uid S) tid db
    rcases hF : find_by_id db tid with _ | t0
    · -- missing id: skipped
      rw [hF] at hfm
      simp only [bulkCompleteLoop, hfm, Option.map_none]
      rw [bulkCompleteLoop_char now uid db hnd htitles rest S hndrest
        (fun t ht => hdisj t (List.mem_cons_of_mem _ ht))
        (fun t ht => howned t (List.mem_cons_of_mem _ ht))]
      have hnotid : ∀ x ∈ db, x.id ≠ some tid := by
        intro x hx hcontra
        have := List.find?_eq_none.mp hF x hx
        simp [hcontra] at this
      have hmapeq : db.map (completeListed now uid (S ++ rest)) =
          db.map (completeListed now uid (S ++ tid :: rest)) :=
        List.map_congr_left (fun x hx =>
          (completeListed_notid now uid x tid S rest (hnotid x hx)).symm)
      rw [hmapeq]
      simp [hF, List.filter_cons]
    · -- id found
      rw [hF] at hfm
      have ht0mem : t0 ∈ db := by
        have := List.find?_some (by
          rw [← hF]
          rfl)
        exact List.mem_of_find?_eq_some hF
      have ht0id : t0.id = some tid := by
        have := List.find?_some hF
        simpa using this
      simp only [bulkCompleteLoop, hfm, Option.map_some']
      by_cases hu : t0.user_id = uid
      · -- caller-owned pending task: completed and counted
        have htidS : tid ∉ S := hdisj tid (List.mem_cons_self _ _)
        have hclt0 : completeListed now uid S t0 = t0 := by
          unfold completeListed
          rw [if_neg]
          rintro ⟨_, t, ht, he⟩
          rw [ht0id] at he
          cases he
          exact htidS ht
        have hcomp : t0.is_completed = false :=
          howned tid (List.mem_cons_self _ _) t0 ht0mem ht0id hu
        rw [hclt0]
        rw [if_neg (by simpa using hu), if_neg (by simp [hcomp])]
        have hsave : save (db.map (completeListed now uid S))
            (markCompleted now t0) =
            db.map (completeListed now uid (S ++ [tid])) := by
          rw [save_map_eq (completeListed now uid S)
            (completeListed_id now uid S) t0 (markCompleted now t0)
            (markCompleted_id now t0) db hnd ht0mem]
          apply List.map_congr_left
          intro x hx
          by_cases hxid : x.id = t0.id
          · have hxeq : x = t0 := eq_of_mem_nodup_id db hnd t0 x ht0mem hx hxid
            subst hxeq
            rw [if_pos rfl]
            unfold completeListed
            rw [if_pos ⟨hu, tid, by simp, ht0id⟩]
          · rw [if_neg hxid]
            have hxid' : x.id ≠ some tid := by rw [← ht0id]; exact hxid
            have h1 : completeListed now uid (S ++ [tid]) x =
                completeListed now uid (S ++ []) x :=
              completeListed_notid now uid x tid S [] hxid'
            rw [h1, List.append_nil]
        rw [hsave]
        have hcascade : auto_complete_related_tasks now
            (db.map (completeListed now uid (S ++ [tid])))
            (markCompleted now t0) =
            (db.map (completeListed now uid (S ++ [tid])), []) := by
          apply auto_complete_no_related
          intro t ht
          rcases List.mem_map.mp ht with ⟨y, hy, rfl⟩
          by_cases hyid : y.id = t0.id
          · left
            rw [completeListed_id, markCompleted_id, hyid]
          · right
            show decide _ = false
            rw [decide_eq_false_iff_not, markCompleted_title,
              completeListed_title]
            exact htitles t0 ht0mem y hy (fun hcontra => hyid hcontra.symm)
        rw [hcascade]
        rw [bulkCompleteLoop_char now uid db hnd htitles rest (S ++ [tid])
          hndrest
          (by
            intro t ht hmem
            rcases List.mem_append.mp hmem with h | h
            · exact hdisj t (List.mem_cons_of_mem _ ht) h
            · rcases List.mem_cons.mp h with rfl | h
              · exact htidrest ht
              · exact absurd h (List.not_mem_nil t))
          (fun t ht => howned t (List.mem_cons_of_mem _ ht))]
        have hassoc : (S ++ [tid]) ++ rest = S ++ tid :: rest := by
          rw [List.append_assoc]
          rfl
        rw [hassoc]
        simp [hF, List.filter_cons, hu]
      · -- task of another owner: skipped
        rw [if_pos (by simpa [completeListed_user_id] using hu)]
        rw [bulkCompleteLoop_char now uid db hnd htitles rest S hndrest
          (fun t ht => hdisj t (List.mem_cons_of_mem _ ht))
          (fun t ht => howned t (List.mem_cons_of_mem _ ht))]
        have hmapeq : db.map (completeListed now uid (S ++ rest)) =
            db.map (completeListed now uid (S ++ tid :: rest)) := by
          apply List.map_congr_left
          intro x hx
          by_cases hxid : x.id = some tid
          · have hxeq : x = t0 :=
              eq_of_mem_nodup_id db hnd t0 x ht0mem hx (by rw [hxid, ht0id])
            subst hxeq
            exact completeListed_notuser now uid x _ _ hu
          · exact (completeListed_notid now uid x tid S rest hxid).symm
        rw [hmapeq]
        simp [hF, List.filter_cons, hu]

/-- C3 amended: over a store with unique ids and pairwise-unrelated
titles (so the auto-completion cascade fires nothing), for distinct task
ids naming a mix of missing, foreign and caller-owned tasks, where the
listed caller-owned tasks are still incomplete, bulk complete raises no
error, marks completed exactly the caller-owned listed tasks, and reports
an updated count equal to the number of ids that resolve to caller-owned
tasks — i.e. the size of the caller-owned subset, which this count equals
only because those tasks are incomplete; the original claim fails when a
listed caller-owned task is already completed. -/
theorem bulk_complete_marks_only_owned
    (now : Int) (db : List Task) (uid : String) (ids : List String)
    (hnd : (db.map Task.id).Nodup)
    (hids : ids.Nodup)
    (hne : ids ≠ [])
    (htitles : ∀ t1 ∈ db, ∀ t2 ∈ db, t1.id ≠ t2.id →
      ¬ mkRat 3 5 < title_similarity t1.title t2.title)
    (howned : ∀ tid ∈ ids, ∀ t ∈ db, t.id = some tid → t.user_id = uid →
      t.is_completed = false) :
    bulkCompleteExecute now db uid ids =
      .ok (db.map (completeListed now uid ids),
        (ids.filter (fun tid => (find_by_id db tid).any
          (fun t => t.user_id = uid))).length,
        []) := by
  unfold bulkCompleteExecute
  rw [if_neg hne]
  have h0 : db.map (completeListed now uid []) = db := by
    have hpt : ∀ x ∈ db, completeListed now uid [] x = id x := by
      intro x _
      unfold completeListed
      rw [if_neg]
      · rfl
      · rintro ⟨_, t, ht, _⟩
        exact List.not_mem_nil t ht
    rw [List.map_congr_left hpt, List.map_id]
  conv_lhs => rw [← h0]
  rw [bulkCompleteLoop_char now uid db hnd htitles ids [] hids
    (fun t _ h => List.not_mem_nil t h) howned]
  rw [List.nil_append]

/-- Witness for C3 (amended): a store with one caller-owned pending task
and one foreign task; ids name a missing task, the foreign task and the
owned task; the count is 1 and exactly the owned task is completed. -/
theorem bulk_complete_marks_only_owned_witness :
    bulkCompleteExecute 0 [taskOwnedPending, taskForeign] "u1"
        ["missing", "c", "b"] =
      .ok ([taskOwnedPending, taskForeign].map
          (completeListed 0 "u1" ["missing", "c", "b"]),
        (["missing", "c", "b"].filter (fun tid =>
          (find_by_id [taskOwnedPending, taskForeign] tid).any
            (fun t => t.user_id = "u1"))).length,
        []) :=
  bulk_complete_marks_only_owned 0 [taskOwnedPending, taskForeign] "u1"
    ["missing", "c", "b"] (by decide) (by decide) (by decide) (by decide)
    (by decide)

end TodoSpec
